import Mathlib

/-!
Shallow embedding of the famous-flex ScrollView module (src/src/ScrollView.js)
and of the LayoutNode module bundled in the same file, together with proofs
about the scroll-offset pipeline, the view-window normalizer, the boundary
detector and the per-node interpolation machine.

Numbers are modelled as rationals.  JavaScript `undefined` (and the NaN that
arises from arithmetic on it) is modelled as `Option.none`; a thrown
`TypeError` is modelled by an `Option.none` result of the whole operation.
-/

set_option autoImplicit false

namespace FamousFlex

/-- JavaScript `Math.round`: rounds half toward positive infinity. -/
def jsRound (x : ℚ) : ℤ := ⌊x + 1/2⌋

/-- `Bounds.NONE` from the `Bounds` enumeration in ScrollView.js. -/
def Bounds.NONE : ℕ := 0

/-- `Bounds.FIRST` from the `Bounds` enumeration in ScrollView.js. -/
def Bounds.FIRST : ℕ := 1

/-- `Bounds.LAST` from the `Bounds` enumeration in ScrollView.js. -/
def Bounds.LAST : ℕ := 2

/-- `Bounds.BOTH` from the `Bounds` enumeration in ScrollView.js. -/
def Bounds.BOTH : ℕ := 3

/-- The scroll state of a ScrollView (the axis-relevant scalar parts of
`this._scroll`): the physics particle position and velocity, the pending
drag offset `moveOffset`, the accumulated wheel delta `scrollDelta`, the
`boundsReached` bitmask and `lastScrollOffset`. -/
structure ScrollState where
  particlePos : ℚ
  particleVel : ℚ
  moveOffset : ℚ
  scrollDelta : ℚ
  boundsReached : ℕ
  lastScrollOffset : ℚ
deriving DecidableEq, Repr

/-- `_getParticlePosition`: the particle position rounded to the
`options.particleRounding` granularity
(`Math.round(pos / rounding) * rounding`). -/
def getParticlePosition (particleRounding : ℚ) (s : ScrollState) : ℚ :=
  (jsRound (s.particlePos / particleRounding) : ℚ) * particleRounding

/-- `_getScrollOffset`: zeroes the pending wheel delta when it pushes past a
reached boundary, then returns rounded particle position + moveOffset +
scrollDelta.  The function mutates `this._scroll.scrollDelta`, so the result
carries the updated state as well. -/
def getScrollOffset (particleRounding : ℚ) (s : ScrollState) : ℚ × ScrollState :=
  let s :=
    if 0 < s.scrollDelta ∧ s.boundsReached.land Bounds.FIRST ≠ 0 then
      { s with scrollDelta := 0 }
    else if s.scrollDelta < 0 ∧ s.boundsReached.land Bounds.LAST ≠ 0 then
      { s with scrollDelta := 0 }
    else s
  (getParticlePosition particleRounding s + s.moveOffset + s.scrollDelta, s)

/-- The wheel (`_scrollSync`) branch of `_moveUpdate`: accumulates the event
delta into `scrollDelta` and forces the particle velocity to 0. -/
def moveUpdateWheel (delta : ℚ) (s : ScrollState) : ScrollState :=
  { s with scrollDelta := s.scrollDelta + delta, particleVel := 0 }

/-- `_integrateScrollDelta`: folds the pending wheel delta into the particle
position, clamping at a reached boundary (FIRST clamps to 0, LAST clamps to
`max lastScrollOffset ·`), then zeroes velocity and scrollDelta.  With no
pending delta it returns early without touching the particle. -/
def integrateScrollDelta (particleRounding : ℚ) (s : ScrollState) : ℚ × ScrollState :=
  let oldOffset := getParticlePosition particleRounding s
  if s.scrollDelta = 0 then
    (oldOffset + s.moveOffset, s)
  else
    let newOffset := oldOffset + s.scrollDelta
    let newOffset :=
      if s.boundsReached.land Bounds.FIRST ≠ 0 then 0
      else if s.boundsReached.land Bounds.LAST ≠ 0 then max s.lastScrollOffset newOffset
      else newOffset
    (newOffset + s.moveOffset,
      { s with particlePos := newOffset, particleVel := 0, scrollDelta := 0 })

/-- A 4x4 transform matrix as stored in a spec: 16 entries, each possibly
`undefined` (`none`). -/
abbrev TransformList : Type := List (Option ℚ)

/-- famous `Transform.translate` (external famous/core/Transform collaborator):
the translation matrix, identity with x, y, z at indices 12..14. -/
def transformTranslate (x y z : ℚ) : TransformList :=
  [some 1, some 0, some 0, some 0,
   some 0, some 1, some 0, some 0,
   some 0, some 0, some 1, some 0,
   some x, some y, some z, some 1]

/-- Modelled from the spec: the external famous `Transform.build` derives a
4x4 matrix from translate/skew/scale/rotate.  Its rotation entries involve
trigonometry that has no exact rational form, so the linear part is
abstracted as an injective encoding of the inputs; the translation lands at
indices 12..14 as in the real matrix.  No claim inspects the non-translation
entries. -/
def transformBuild (translate skew scale rotate : ℚ × ℚ × ℚ) : TransformList :=
  [some skew.1, some skew.2.1, some skew.2.2, some 0,
   some rotate.1, some rotate.2.1, some rotate.2.2, some 0,
   some scale.1, some scale.2.1, some scale.2.2, some 0,
   some translate.1, some translate.2.1, some translate.2.2, some 1]

/-- A property set as passed to `LayoutNode.set` / interpolated by
`_interpolateSet`.  Components of `size` may be `undefined` (its
`propertiesWithDefaults` default is `[undefined, undefined]`); `undefined`
and NaN are conflated as `none`.  `hasTransition` models the presence of
`set.transition`. -/
structure PropertySet where
  size : Option (Option ℚ × Option ℚ) := none
  origin : Option (ℚ × ℚ) := none
  align : Option (ℚ × ℚ) := none
  skew : Option (ℚ × ℚ × ℚ) := none
  rotate : Option (ℚ × ℚ × ℚ) := none
  scale : Option (ℚ × ℚ × ℚ) := none
  translate : Option (ℚ × ℚ × ℚ) := none
  opacity : Option ℚ := none
  hide : Option Bool := none
  hasTransition : Bool := false
  scrollLength : Option ℚ := none
deriving DecidableEq

/-- A spec object (`this._spec` of a LayoutNode, or the spec argument of
`setSpec`): each field may be absent (`undefined`). -/
structure SpecObject where
  renderNode : Option ℕ := none
  size : Option (Option ℚ × Option ℚ) := none
  origin : Option (ℚ × ℚ) := none
  align : Option (ℚ × ℚ) := none
  hide : Option Bool := none
  transform : Option TransformList := none
  opacity : Option ℚ := none
  removed : Option Bool := none
deriving DecidableEq

/-- The state of a famous `Transitionable` (external collaborator) as far as
the LayoutNode reads it: the current tween value returned by `get()` and the
`isActive()` flag.  The transition primitive guarantees the tween runs from 0
to 1 over the transition duration. -/
structure Transitionable where
  tween : ℚ
  active : Bool
deriving DecidableEq

/-- A LayoutNode: the committed spec, the interpolation bookkeeping sets
(`_originalSet`, `_lastSet`, `_targetSet`), the optional active
`_transitionable` and the lifecycle flags. -/
structure LayoutNode where
  renderNode : Option ℕ
  spec : SpecObject
  originalSet : Option PropertySet := none
  lastSet : Option PropertySet := none
  targetSet : Option PropertySet := none
  transitionable : Option Transitionable := none
  invalidated : Bool := false
  specModified : Bool := true
  removing : Bool := false
  scrollLength : Option ℚ := none
deriving DecidableEq

/-- The `LayoutNode(renderNode, spec)` constructor: clones the given spec (or
starts from an empty object), stores the render node in it, and initialises
the flags (`_specModified = true`, `_invalidated = false`,
`_removing = false`). -/
def LayoutNode.init (renderNode : ℕ) (spec : Option SpecObject) : LayoutNode :=
  { renderNode := some renderNode,
    spec := { spec.getD {} with renderNode := some renderNode } }

/-- Linear interpolation `from + (to - from) * tweenValue` used by
`_interpolateSet` on each dimension. -/
def lerp (a b t : ℚ) : ℚ := a + (b - a) * t

/-- `lerp` on possibly-`undefined` components: JS arithmetic on `undefined`
yields NaN, conflated here with `none`. -/
def lerpOpt (a b : Option ℚ) (t : ℚ) : Option ℚ :=
  match a, b with
  | some x, some y => some (lerp x y t)
  | _, _ => none

/-- One two-dimensional channel of `_interpolateSet`: tweenFrom is the
original set's value or the channel default; if the target set leaves the
channel undefined, tweenTo is tweenFrom itself (the `tweenTo === tweenFrom`
shortcut carries it through), otherwise each dimension is lerped. -/
def interpPair (oc lc : Option (ℚ × ℚ)) (d : ℚ × ℚ) (t : ℚ) : ℚ × ℚ :=
  let f := oc.getD d
  match lc with
  | none => f
  | some v => (lerp f.1 v.1 t, lerp f.2 v.2 t)

/-- The `size` channel of `_interpolateSet`: like `interpPair` but the
default is `[undefined, undefined]` and components may be undefined. -/
def interpSize (oc lc : Option (Option ℚ × Option ℚ)) (t : ℚ) : Option ℚ × Option ℚ :=
  let f := oc.getD (none, none)
  match lc with
  | none => f
  | some v => (lerpOpt f.1 v.1 t, lerpOpt f.2 v.2 t)

/-- One three-dimensional channel of `_interpolateSet` (skew, rotate, scale,
translate). -/
def interpTriple (oc lc : Option (ℚ × ℚ × ℚ)) (d : ℚ × ℚ × ℚ) (t : ℚ) : ℚ × ℚ × ℚ :=
  let f := oc.getD d
  match lc with
  | none => f
  | some v => (lerp f.1 v.1 t, lerp f.2.1 v.2.1 t, lerp f.2.2 v.2.2 t)

/-- The opacity channel of `_interpolateSet`, including the final
`resultingSet.opacity = resultingSet.opacity[0]` unwrap.  When the original
set holds a scalar opacity and the channel does not tween (target equal or
absent), the `tweenTo === tweenFrom` shortcut keeps the scalar, and indexing
a JS number with `[0]` yields `undefined` (`none`).  When both sets leave
opacity undefined the default array `[1]` is carried through and unwraps to
1; when the channel tweens, the scalar is arrayified first and unwraps to
the lerped value. -/
def interpOpacity (oo lo : Option ℚ) (t : ℚ) : Option ℚ :=
  match oo, lo with
  | some a, some b => if a = b then none else some (lerp a b t)
  | some _, none => none
  | none, some b => some (lerp 1 b t)
  | none, none => some 1

/-- `_interpolateSet` as a function of `_originalSet`, `_lastSet` and the
transitionable's tween value: with no original set, or at tween 1, the last
(target) set is returned directly; otherwise each channel of
`propertiesWithDefaults` is interpolated. -/
def interpolateSet (orig : Option PropertySet) (last : PropertySet) (tween : ℚ) : PropertySet :=
  match orig with
  | none => last
  | some o =>
    if tween = 1 then last
    else
      { size := some (interpSize o.size last.size tween),
        origin := some (interpPair o.origin last.origin (0, 0) tween),
        align := some (interpPair o.align last.align (0, 0) tween),
        skew := some (interpTriple o.skew last.skew (0, 0, 0) tween),
        rotate := some (interpTriple o.rotate last.rotate (0, 0, 0) tween),
        scale := some (interpTriple o.scale last.scale (1, 1, 1) tween),
        translate := some (interpTriple o.translate last.translate (0, 0, 0) tween),
        opacity := interpOpacity o.opacity last.opacity tween,
        hide := none,
        hasTransition := false,
        scrollLength := none }

/-- `LayoutNode.prototype._interpolateSet` at the node level: reads the tween
from the node's transitionable.  A missing transitionable or last set throws
in JS; both are modelled as `none`. -/
def LayoutNode.interpolateSetOf (n : LayoutNode) : Option PropertySet :=
  match n.transitionable, n.lastSet with
  | some tr, some l => some (interpolateSet n.originalSet l tr.tween)
  | _, _ => none

/-- `_modifySpecFromSet`: copies opacity/size/origin/align/hide from the set
into the spec and derives the transform.  The per-component default
substitution (`set[p][i] === undefined ? default[i] : set[p][i]`) is the
identity here: origin/align components are always defined rationals and the
size defaults are themselves undefined. -/
def modifySpecFromSet (spec : SpecObject) (s : PropertySet) : SpecObject :=
  { spec with
    opacity := s.opacity,
    size := s.size,
    origin := s.origin,
    align := s.align,
    hide := s.hide,
    transform :=
      if s.skew.isSome ∨ s.rotate.isSome ∨ s.scale.isSome then
        some (transformBuild (s.translate.getD (0, 0, 0)) (s.skew.getD (0, 0, 0))
          (s.scale.getD (1, 1, 1)) (s.rotate.getD (0, 0, 0)))
      else
        match s.translate with
        | some tv => some (transformTranslate tv.1 tv.2.1 tv.2.2)
        | none => none }

/-- `LayoutNode.prototype.set`: stores the target set; with a transition it
creates a transitionable only when none is active (an active one is kept,
together with the recorded `_originalSet`); without an active transitionable
the original set becomes this set.  Then it records `_lastSet`, marks the
node invalidated/modified/not-removing and writes the set into the committed
spec.  The unused `size` parameter of the JS function is omitted. -/
def LayoutNode.set (n : LayoutNode) (s : PropertySet) : LayoutNode :=
  let n1 :=
    if s.hasTransition then
      { n with targetSet := some s,
               transitionable :=
                 match n.transitionable with
                 | none => some { tween := 0, active := true }
                 | some tr => some tr }
    else n
  let n2 := if n1.transitionable = none then { n1 with originalSet := some s } else n1
  { n2 with lastSet := some s, invalidated := true, specModified := true, removing := false,
            spec := modifySpecFromSet n2.spec s, scrollLength := s.scrollLength }

/-- `_getFinalSpec`: with an active transitionable (and the spec not hidden)
builds a fresh spec from the interpolated set; with no transitionable, or a
hidden spec, returns the committed spec.  A present-but-inactive
transitionable is deleted and the subsequent `this._transitionable.get()`
inside `_interpolateSet` throws (`none`). -/
def LayoutNode.getFinalSpec (n : LayoutNode) : Option SpecObject :=
  match n.transitionable with
  | some tr =>
    if n.spec.hide = some true then some n.spec
    else if tr.active = false then none
    else
      match n.lastSet with
      | none => none
      | some l =>
        some (modifySpecFromSet { renderNode := n.spec.renderNode }
          (interpolateSet n.originalSet l tr.tween))
  | none => some n.spec

/-- `LayoutNode.prototype.getSpec`: clears `_specModified`, sets
`_spec.removed` from the invalidation flag and returns `_getFinalSpec`
together with the updated node. -/
def LayoutNode.getSpec (n : LayoutNode) : Option (SpecObject × LayoutNode) :=
  let n1 := { n with specModified := false,
                     spec := { n.spec with removed := some (!n.invalidated) } }
  match n1.getFinalSpec with
  | none => none
  | some sp => some (sp, n1)

/-- The write pattern `this._spec.p[0] = spec.p[0]; this._spec.p[1] = ...`
of `setSpec` for align/origin/size: an incoming value is written element-wise
into the existing committed array (TypeError, `none`, when there is none);
an absent incoming value clears the committed field. -/
def writeComponents {α : Type} (committed incoming : Option α) : Option (Option α) :=
  match incoming with
  | some a =>
    match committed with
    | some _ => some (some a)
    | none => none
  | none => some none

/-- The transform write of `setSpec`: 16 components of the incoming array are
written element-wise into the existing committed array (entries beyond 16 of
the committed array survive; missing incoming entries become undefined). -/
def write16 (c t : TransformList) : TransformList :=
  ((List.range 16).map (fun i => (List.get? t i).join)) ++ List.drop 16 c

/-- `LayoutNode.prototype.setSpec`: marks the spec modified and copies the
incoming spec field by field; align/origin/size/transform are written into
the node's existing arrays (the `!spec.x` re-allocation branches are dead
code), so each such write throws when the committed spec lacks the array. -/
def LayoutNode.setSpec (n : LayoutNode) (spec : SpecObject) : Option LayoutNode :=
  match writeComponents n.spec.align spec.align with
  | none => none
  | some al =>
    match writeComponents n.spec.origin spec.origin with
    | none => none
    | some org =>
      match writeComponents n.spec.size spec.size with
      | none => none
      | some sz =>
        let tr : Option (Option TransformList) :=
          match spec.transform with
          | some t =>
            match n.spec.transform with
            | some c => some (some (write16 c t))
            | none => none
          | none => some none
        match tr with
        | none => none
        | some tv =>
          some { n with
                   specModified := true,
                   spec := { n.spec with
                               align := al, origin := org, size := sz,
                               hide := spec.hide, transform := tv,
                               opacity := spec.opacity } }

/-- `LayoutNode.prototype.remove`: sets `this._removing = true`; the
`removeSpec` argument is not used. -/
def LayoutNode.remove (n : LayoutNode) (removeSpec : Option SpecObject) : LayoutNode :=
  { n with removing := true }

/-- A concrete retargeting scenario for `LayoutNode.set`: a node whose
translate is animating from 0 to 100 and whose tween has advanced to 1/2
when `set` retargets it. -/
def retargetNode : LayoutNode :=
  let n := ((LayoutNode.init 1 none).set { translate := some (0, 0, 0) }).set
    { translate := some (100, 0, 0), hasTransition := true }
  { n with transitionable := some { tween := 1/2, active := true } }

/-- A concrete node exhibiting the opacity unwrap slip: translate animates
from 0 to 100, opacity is 1/2 in both the start and the target set, and the
tween is at 0. -/
def opacityBugNode : LayoutNode :=
  ((LayoutNode.init 1 none).set { translate := some (0, 0, 0), opacity := some (1/2) }).set
    { translate := some (100, 0, 0), opacity := some (1/2), hasTransition := true }

/-- One laid-out spec in `this._commitOutput.target`, restricted to the
axis-relevant data used by normalization and bounds detection: the owning
render node (an opaque id), the `trueSizeRequested` flag, the leading edge
`transform[12 + direction]` and the size `size[direction]`. -/
structure Spec where
  renderNode : ℕ
  trueSizeRequested : Bool
  transformOffset : ℚ
  size : ℚ
deriving DecidableEq

/-- A cursor into the externally-owned view sequence: the underlying item
list (render-node ids) and the cursor index.  `getPrevious` returns null at
index 0 and `get` returns null past the end of the list. -/
structure ViewSeq where
  items : List ℕ
  idx : ℕ
deriving DecidableEq

/-- `viewSequence.get()`: the current item, or null (`none`) when the cursor
is past the ends of the sequence. -/
def ViewSeq.get (v : ViewSeq) : Option ℕ := v.items[v.idx]?

/-- `_lookupSpecByViewSequence` (spec-returning form): undefined when the
view-sequence cursor or its current render node is null, otherwise the first
spec in the window whose `renderNode` matches.  The `startIndex` parameter
of the JS function is unused (marked todo in the source). -/
def lookupSpecByViewSequence (specs : List Spec) (v : ViewSeq) : Option Spec :=
  match v.get with
  | none => none
  | some rn => specs.find? (fun sp => sp.renderNode = rn)

/-- The state mutated by `_normalizeScrollOffset`: the anchor cursor
`this._viewSequence` (none when null) and the particle position. -/
structure NormState where
  seq : Option ViewSeq
  particle : ℚ
deriving DecidableEq

/-- The `scrollOffset >= 0` loop of `_normalizeScrollOffset`: walks backward
from the anchor, promoting each previous node whose spec is present, sized
and still visible (trailing edge at or after 0), subtracting its size from
the particle position and the working offset.  Returns the final cursor
index, particle position and offset; structural recursion on the cursor
index (index 0 is the null `getPrevious`). -/
def normBackLoop (specs : List Spec) (items : List ℕ) :
    ℕ → ℚ → ℚ → ℕ × ℚ × ℚ
  | 0, p, o => (0, p, o)
  | i + 1, p, o =>
    match lookupSpecByViewSequence specs ⟨items, i⟩ with
    | none => (i + 1, p, o)
    | some sp =>
      if sp.trueSizeRequested ∨ sp.transformOffset + sp.size < 0 then (i + 1, p, o)
      else normBackLoop specs items i (p - sp.size) (o - sp.size)

/-- The `scrollOffset < 0` loop of `_normalizeScrollOffset`: walks forward
while a next node with a current item exists, promoting the next node
whenever the current anchor's spec is present, sized and fully off-screen
(trailing edge before 0), adding its size to the particle position and the
working offset.  `fuel` only bounds the recursion: whenever
`items.length ≤ fuel + index` the walk stops on its own (the cursor passes
the end of the list) before the fuel runs out, so the top-level call with
`fuel = items.length` is exact. -/
def normFwdLoop (specs : List Spec) (items : List ℕ) :
    ℕ → ℕ → ℚ → ℚ → ℕ × ℚ × ℚ
  | 0, i, p, o => (i, p, o)
  | f + 1, i, p, o =>
    match (⟨items, i + 1⟩ : ViewSeq).get with
    | none => (i, p, o)
    | some _ =>
      match lookupSpecByViewSequence specs ⟨items, i⟩ with
      | none => (i, p, o)
      | some prevSpec =>
        if prevSpec.trueSizeRequested ∨ 0 ≤ prevSpec.transformOffset + prevSpec.size then
          (i, p, o)
        else normFwdLoop specs items f (i + 1) (p + prevSpec.size) (o + prevSpec.size)

/-- `_normalizeScrollOffset`: with a null anchor returns the offset
unchanged; with `scrollOffset >= 0` runs the backward walk; otherwise, if
the last spec's trailing edge stops short of the viewport end, returns the
offset unchanged — reading the last spec of an empty window throws
(`none`) — else runs the forward walk. -/
def normalizeScrollOffset (vsize : ℚ) (specs : List Spec) (scrollOffset : ℚ)
    (st : NormState) : Option (NormState × ℚ) :=
  match st.seq with
  | none => some (st, scrollOffset)
  | some v =>
    if 0 ≤ scrollOffset then
      some ({ seq := some ⟨v.items, (normBackLoop specs v.items v.idx st.particle scrollOffset).1⟩,
              particle := (normBackLoop specs v.items v.idx st.particle scrollOffset).2.1 },
            (normBackLoop specs v.items v.idx st.particle scrollOffset).2.2)
    else
      match specs.getLast? with
      | none => none
      | some lastSpec =>
        if lastSpec.transformOffset + lastSpec.size < vsize then some (st, scrollOffset)
        else
          some ({ seq := some ⟨v.items,
                    (normFwdLoop specs v.items v.items.length v.idx st.particle scrollOffset).1⟩,
                  particle := (normFwdLoop specs v.items v.items.length v.idx
                    st.particle scrollOffset).2.1 },
                (normFwdLoop specs v.items v.items.length v.idx st.particle scrollOffset).2.2)

/-- The stop/continue decision of the backward walk at a cursor position:
`some sp` when the walk would promote the previous node using its spec `sp`,
`none` when it stops (start of sequence, missing item or spec,
trueSizeRequested, or trailing edge before 0). -/
def backCont (specs : List Spec) (items : List ℕ) : ℕ → Option Spec
  | 0 => none
  | i + 1 =>
    match lookupSpecByViewSequence specs ⟨items, i⟩ with
    | none => none
    | some sp =>
      if sp.trueSizeRequested ∨ sp.transformOffset + sp.size < 0 then none else some sp

/-- The stop/continue decision of the forward walk at a cursor position:
`some sp` when the walk would promote the next node (current anchor's spec
`sp` present, sized and fully off-screen), `none` when it stops. -/
def fwdCont (specs : List Spec) (items : List ℕ) (i : ℕ) : Option Spec :=
  match (⟨items, i + 1⟩ : ViewSeq).get with
  | none => none
  | some _ =>
    match lookupSpecByViewSequence specs ⟨items, i⟩ with
    | none => none
    | some sp =>
      if sp.trueSizeRequested ∨ 0 ≤ sp.transformOffset + sp.size then none else some sp

/-- The forward walk of `_calculateBoundsReached`: verifies every windowed
item from the anchor on has a resolved spec, threading the most recent
spec through the JS `spec` variable.  `none` is the early `return` (bounds
deferred); `some spec?` is normal loop exit with the final value of the
`spec` variable.  As with `normFwdLoop`, `fuel = items.length` at the top
level is exact. -/
def boundsWalk (specs : List Spec) (items : List ℕ) :
    ℕ → ℕ → Option Spec → Option (Option Spec)
  | 0, _, sp => some sp
  | f + 1, i, sp =>
    match (⟨items, i⟩ : ViewSeq).get with
    | none => some sp
    | some _ =>
      match lookupSpecByViewSequence specs ⟨items, i⟩ with
      | none => none
      | some sp2 =>
        if sp2.trueSizeRequested then none
        else boundsWalk specs items f (i + 1) (some sp2)

/-- `_calculateBoundsReached`: computes the `boundsReached` bitmask and (when
LAST is detected) the new `lastScrollOffset`.  `endReachedStart` is the
external base controller's `this._nodes.endReached(true)` (start of
sequence reached); `lastScrollOffset0` is the incoming
`this._scroll.lastScrollOffset`, kept when the function returns early.  The
result is `none` when the final `spec.transform` read dereferences an
undefined `spec` variable (reachable with a null anchor or an anchor with no
current item when the top check did not run). -/
def calcBoundsReached (vsize scrollOffset : ℚ) (specs : List Spec) (seq : Option ViewSeq)
    (endReachedStart : Bool) (lastScrollOffset0 : ℚ) : Option (ℕ × ℚ) :=
  let br0 : ℕ := if seq.isNone then Bounds.FIRST else Bounds.NONE
  let firstCheck : ℕ × Option Spec :=
    match specs with
    | [] => (br0, none)
    | s0 :: _ =>
      if endReachedStart ∧ 0 ≤ scrollOffset then
        (if 0 ≤ s0.transformOffset then br0.lor Bounds.FIRST else br0, some s0)
      else (br0, none)
  let walkRes : Option (Option Spec) :=
    match seq with
    | none => some firstCheck.2
    | some v => boundsWalk specs v.items v.items.length v.idx firstCheck.2
  match walkRes with
  | none => some (firstCheck.1, lastScrollOffset0)
  | some none => none
  | some (some sp) =>
    if vsize < sp.transformOffset + sp.size then some (firstCheck.1, lastScrollOffset0)
    else
      let br2 := if endReachedStart then firstCheck.1.lor Bounds.FIRST else firstCheck.1
      some (br2.lor Bounds.LAST, (vsize - (sp.transformOffset + sp.size)) + scrollOffset)

theorem foldl_moveUpdateWheel_scrollDelta (ds : List ℚ) (s : ScrollState) :
    (ds.foldl (fun t d => moveUpdateWheel d t) s).scrollDelta = s.scrollDelta + ds.sum := by
  induction ds generalizing s with
  | nil => simp
  | cons d ds ih =>
    rw [List.foldl_cons, ih]
    show (moveUpdateWheel d s).scrollDelta + ds.sum = s.scrollDelta + (d + ds.sum)
    show s.scrollDelta + d + ds.sum = s.scrollDelta + (d + ds.sum)
    ring

theorem foldl_moveUpdateWheel_particlePos (ds : List ℚ) (s : ScrollState) :
    (ds.foldl (fun t d => moveUpdateWheel d t) s).particlePos = s.particlePos := by
  induction ds generalizing s with
  | nil => rfl
  | cons d ds ih =>
    rw [List.foldl_cons, ih]
    rfl

theorem foldl_moveUpdateWheel_moveOffset (ds : List ℚ) (s : ScrollState) :
    (ds.foldl (fun t d => moveUpdateWheel d t) s).moveOffset = s.moveOffset := by
  induction ds generalizing s with
  | nil => rfl
  | cons d ds ih =>
    rw [List.foldl_cons, ih]
    rfl

theorem foldl_moveUpdateWheel_boundsReached (ds : List ℚ) (s : ScrollState) :
    (ds.foldl (fun t d => moveUpdateWheel d t) s).boundsReached = s.boundsReached := by
  induction ds generalizing s with
  | nil => rfl
  | cons d ds ih =>
    rw [List.foldl_cons, ih]
    rfl

/-- C1 counterexample: with a pending wheel delta of 0, `_integrateScrollDelta`
returns early and leaves the particle at its prior position (here 5) even
though `boundsReached` includes FIRST, so the resulting particle position is
not 0 as the claim states. -/
theorem integrate_first_counterexample :
    (integrateScrollDelta 1 ⟨5, 0, 0, 0, 1, 0⟩).2.boundsReached.land Bounds.FIRST ≠ 0 ∧
    (integrateScrollDelta 1 ⟨5, 0, 0, 0, 1, 0⟩).2.particlePos ≠ 0 := by
  constructor
  · decide
  · decide

/-- C1 (amended): after `_integrateScrollDelta` runs with a nonzero pending
wheel delta, if `boundsReached` includes FIRST the resulting particle position
is exactly 0, and if it includes LAST but not FIRST the resulting particle
position is at least `lastScrollOffset`; this holds for every prior particle
position, nonzero pending wheel delta and moveOffset. -/
theorem integrate_clamps_at_bounds (g : ℚ) (s : ScrollState) (h : s.scrollDelta ≠ 0) :
    (s.boundsReached.land Bounds.FIRST ≠ 0 →
      (integrateScrollDelta g s).2.particlePos = 0) ∧
    (s.boundsReached.land Bounds.FIRST = 0 → s.boundsReached.land Bounds.LAST ≠ 0 →
      s.lastScrollOffset ≤ (integrateScrollDelta g s).2.particlePos) := by
  unfold integrateScrollDelta
  rw [if_neg h]
  constructor
  · intro hf
    simp only [if_pos hf]
  · intro hf hl
    simp only [hf, ne_eq, not_true_eq_false, if_neg, if_pos hl, le_max_iff]
    simp

/-- Witness for `integrate_clamps_at_bounds` at a concrete input: particle at
5, wheel delta 50, `boundsReached = FIRST`. -/
theorem integrate_clamps_at_bounds_witness :
    (⟨5, 0, 0, 50, 1, 0⟩ : ScrollState).scrollDelta ≠ 0 ∧
    (⟨5, 0, 0, 50, 1, 0⟩ : ScrollState).boundsReached.land Bounds.FIRST ≠ 0 ∧
    (integrateScrollDelta 1 ⟨5, 0, 0, 50, 1, 0⟩).2.particlePos = 0 := by
  refine ⟨by decide, by decide, ?_⟩
  exact (integrate_clamps_at_bounds 1 ⟨5, 0, 0, 50, 1, 0⟩ (by decide)).1 (by decide)

/-- C2 counterexample: with the default rounding granularity 1/5 and a
particle at 1/10, a single wheel update with delta 1 gives an effective
offset of 1/5 + 1 = 6/5, not particle position + delta = 11/10, because
`_getScrollOffset` reads the particle through `_getParticlePosition`'s
rounding step. -/
theorem wheel_sum_counterexample :
    (getScrollOffset (1/5) (moveUpdateWheel 1 ⟨1/10, 0, 0, 0, Bounds.NONE, 0⟩)).1 = 6/5 ∧
    (getScrollOffset (1/5) (moveUpdateWheel 1 ⟨1/10, 0, 0, 0, Bounds.NONE, 0⟩)).1 ≠ 1/10 + 1 := by
  have h1 : (getScrollOffset (1/5) (moveUpdateWheel 1 ⟨1/10, 0, 0, 0, Bounds.NONE, 0⟩)).1 = 6/5 := by
    show (getScrollOffset (1/5) ⟨1/10, 0, 0, 0 + 1, Bounds.NONE, 0⟩).1 = 6/5
    unfold getScrollOffset
    have hc1 : ¬(0 < (0 + 1 : ℚ) ∧ Nat.land Bounds.NONE Bounds.FIRST ≠ 0) := by
      rintro ⟨-, hland⟩
      exact hland rfl
    have hc2 : ¬((0 + 1 : ℚ) < 0 ∧ Nat.land Bounds.NONE Bounds.LAST ≠ 0) := by
      rintro ⟨-, hland⟩
      exact hland rfl
    simp only [if_neg hc1, if_neg hc2]
    show getParticlePosition (1/5) ⟨1/10, 0, 0, 0 + 1, Bounds.NONE, 0⟩ + 0 + (0 + 1) = 6/5
    unfold getParticlePosition jsRound
    show ((⌊(1/10 : ℚ) / (1/5) + 1/2⌋ : ℚ)) * (1/5) + 0 + (0 + 1) = 6/5
    have hd : (1/10 : ℚ) / (1/5) + 1/2 = 1 := by norm_num
    rw [hd]
    norm_num
  refine ⟨h1, ?_⟩
  rw [h1]
  norm_num

/-- C2 (amended): for every sequence of wheel update events with deltas
d1..dn delivered while no boundary is reached and no drag is in progress,
`_getScrollOffset` equals the rounded particle position plus d1+...+dn. -/
theorem wheel_deltas_accumulate (g p v lso : ℚ) (ds : List ℚ) :
    (getScrollOffset g (ds.foldl (fun t d => moveUpdateWheel d t) ⟨p, v, 0, 0, Bounds.NONE, lso⟩)).1
      = getParticlePosition g ⟨p, v, 0, 0, Bounds.NONE, lso⟩ + ds.sum := by
  set s0 : ScrollState := ⟨p, v, 0, 0, Bounds.NONE, lso⟩ with hs0
  set s1 := ds.foldl (fun t d => moveUpdateWheel d t) s0 with hs1
  have hb : s1.boundsReached = Bounds.NONE := by
    rw [hs1, foldl_moveUpdateWheel_boundsReached]
  have hcond1 : ¬(0 < s1.scrollDelta ∧ s1.boundsReached.land Bounds.FIRST ≠ 0) := by
    rintro ⟨-, hland⟩
    rw [hb] at hland
    exact hland rfl
  have hcond2 : ¬(s1.scrollDelta < 0 ∧ s1.boundsReached.land Bounds.LAST ≠ 0) := by
    rintro ⟨-, hland⟩
    rw [hb] at hland
    exact hland rfl
  unfold getScrollOffset
  simp only [if_neg hcond1, if_neg hcond2]
  have hpos : s1.particlePos = p := by rw [hs1, foldl_moveUpdateWheel_particlePos]
  have hmov : s1.moveOffset = 0 := by rw [hs1, foldl_moveUpdateWheel_moveOffset]
  have hdel : s1.scrollDelta = ds.sum := by
    rw [hs1, foldl_moveUpdateWheel_scrollDelta]; simp
  simp only [getParticlePosition, hpos, hmov, hdel]
  ring

/-- C8: when the pending wheel delta is positive while `boundsReached`
includes FIRST, or negative while it includes LAST, `_getScrollOffset` resets
`scrollDelta` to 0 and returns the unchanged rounded particle position plus
any moveOffset. -/
theorem wheel_halts_at_boundary (g : ℚ) (s : ScrollState)
    (h : (0 < s.scrollDelta ∧ s.boundsReached.land Bounds.FIRST ≠ 0) ∨
         (s.scrollDelta < 0 ∧ s.boundsReached.land Bounds.LAST ≠ 0)) :
    getScrollOffset g s = (getParticlePosition g s + s.moveOffset, { s with scrollDelta := 0 }) := by
  unfold getScrollOffset
  rcases h with ⟨h1, h2⟩ | ⟨h1, h2⟩
  · simp only [if_pos (And.intro h1 h2)]
    simp [getParticlePosition]
  · have hneg : ¬(0 < s.scrollDelta ∧ s.boundsReached.land Bounds.FIRST ≠ 0) := by
      rintro ⟨h1', -⟩
      exact absurd h1 (not_lt_of_lt h1')
    simp only [if_neg hneg, if_pos (And.intro h1 h2)]
    simp [getParticlePosition]

/-- Witness for `wheel_halts_at_boundary`: wheel delta +50 while
`boundsReached = FIRST` yields the rounded particle position (5) and a zeroed
scrollDelta. -/
theorem wheel_halts_at_boundary_witness :
    (0 < (⟨5, 0, 0, 50, 1, 0⟩ : ScrollState).scrollDelta ∧
      (⟨5, 0, 0, 50, 1, 0⟩ : ScrollState).boundsReached.land Bounds.FIRST ≠ 0) ∧
    getScrollOffset 1 ⟨5, 0, 0, 50, 1, 0⟩ = (5, ⟨5, 0, 0, 0, 1, 0⟩) := by
  have hc : (0 : ℚ) < 50 := by norm_num
  have hl : Nat.land 1 Bounds.FIRST ≠ 0 := by decide
  have h := wheel_halts_at_boundary 1 ⟨5, 0, 0, 50, 1, 0⟩ (Or.inl ⟨hc, hl⟩)
  refine ⟨⟨hc, hl⟩, ?_⟩
  rw [h]
  have hpp : getParticlePosition 1 ⟨5, 0, 0, 50, 1, 0⟩ + (⟨5, 0, 0, 50, 1, 0⟩ : ScrollState).moveOffset = 5 := by
    unfold getParticlePosition jsRound
    show ((⌊(5 : ℚ) / 1 + 1/2⌋ : ℚ)) * 1 + 0 = 5
    norm_num
  rw [show ((5 : ℚ), (⟨5, 0, 0, 0, 1, 0⟩ : ScrollState))
        = (getParticlePosition 1 ⟨5, 0, 0, 50, 1, 0⟩ + (⟨5, 0, 0, 50, 1, 0⟩ : ScrollState).moveOffset,
           (⟨5, 0, 0, 0, 1, 0⟩ : ScrollState)) from by rw [hpp]]

/-- C3 counterexample: retargeting an active interpolation through `set`
produces a discontinuity.  With translate animating 0 → 100 at tween 1/2 the
interpolated translate reads 50; immediately after `set` retargets to 200
(same tween 1/2, the transitionable is kept) it reads 100, because `set`
keeps `_originalSet` and only replaces `_lastSet`. -/
theorem set_retarget_counterexample :
    retargetNode.interpolateSetOf ≠
      (retargetNode.set { translate := some (200, 0, 0), hasTransition := true }).interpolateSetOf ∧
    retargetNode.interpolateSetOf.map PropertySet.translate = some (some (50, 0, 0)) ∧
    (retargetNode.set { translate := some (200, 0, 0), hasTransition := true
      }).interpolateSetOf.map PropertySet.translate = some (some (100, 0, 0)) := by
  have h1 : retargetNode.interpolateSetOf.map PropertySet.translate = some (some (50, 0, 0)) := by
    simp +decide only [retargetNode, LayoutNode.init, LayoutNode.set,
      LayoutNode.interpolateSetOf, interpolateSet, interpPair, interpSize, interpTriple,
      interpOpacity, lerp, lerpOpt, modifySpecFromSet, Option.map]
    all_goals norm_num
  have h2 : (retargetNode.set { translate := some (200, 0, 0), hasTransition := true
      }).interpolateSetOf.map PropertySet.translate = some (some (100, 0, 0)) := by
    simp +decide only [retargetNode, LayoutNode.init, LayoutNode.set,
      LayoutNode.interpolateSetOf, interpolateSet, interpPair, interpSize, interpTriple,
      interpOpacity, lerp, lerpOpt, modifySpecFromSet, Option.map]
    all_goals norm_num
  refine ⟨?_, h1, h2⟩
  intro he
  rw [he, h2] at h1
  norm_num at h1

/-- C3 (amended): when `set` is called with a transition on a LayoutNode
whose interpolation is already active, the existing transitionable and the
recorded start set `_originalSet` are kept and only the target
(`_lastSet`/`_targetSet`) is replaced; the interpolated read immediately
after the call therefore interpolates from the original start to the new
target at the unchanged tween value (and may differ from the read
immediately before the call). -/
theorem set_keeps_active_transition (n : LayoutNode) (s : PropertySet) (tr : Transitionable)
    (ha : n.transitionable = some tr) (hs : s.hasTransition = true) :
    (n.set s).transitionable = some tr ∧
    (n.set s).originalSet = n.originalSet ∧
    (n.set s).lastSet = some s ∧
    (n.set s).targetSet = some s ∧
    (n.set s).interpolateSetOf = some (interpolateSet n.originalSet s tr.tween) := by
  unfold LayoutNode.set LayoutNode.interpolateSetOf
  simp [hs, ha]

/-- Witness for `set_keeps_active_transition` at the concrete retargeting
scenario. -/
theorem set_keeps_active_transition_witness :
    retargetNode.transitionable = some { tween := 1/2, active := true } ∧
    ({ translate := some ((200 : ℚ), 0, 0), hasTransition := true } : PropertySet).hasTransition
      = true ∧
    (retargetNode.set { translate := some (200, 0, 0), hasTransition := true }).originalSet
      = retargetNode.originalSet := by
  have ha : retargetNode.transitionable = some { tween := 1/2, active := true } := by
    simp [retargetNode, LayoutNode.init, LayoutNode.set, modifySpecFromSet]
  refine ⟨ha, rfl, ?_⟩
  exact (set_keeps_active_transition retargetNode
    { translate := some (200, 0, 0), hasTransition := true }
    { tween := 1/2, active := true } ha rfl).2.1

/-- C4 failing input: a node whose interpolation is active at progress 0 with
opacity 1/2 recorded in the start set (and unchanged in the target set).  The
spec read through `getSpec` carries `opacity = undefined` (`none`) instead of
the start set's 1/2: the `tweenTo === tweenFrom` shortcut keeps the scalar
opacity and `resultingSet.opacity[0]` on a JS number yields `undefined`. -/
theorem interpolate_opacity_dropped :
    opacityBugNode.originalSet.map PropertySet.opacity = some (some (1/2)) ∧
    opacityBugNode.transitionable.map Transitionable.tween = some 0 ∧
    opacityBugNode.getSpec.map (fun p => p.1.opacity) = some none := by
  refine ⟨?_, ?_, ?_⟩
  · simp [opacityBugNode, LayoutNode.init, LayoutNode.set, modifySpecFromSet, Option.map]
  · simp [opacityBugNode, LayoutNode.init, LayoutNode.set, modifySpecFromSet, Option.map]
  · simp +decide only [opacityBugNode, LayoutNode.init, LayoutNode.set, LayoutNode.getSpec,
      LayoutNode.getFinalSpec, interpolateSet, interpPair, interpSize, interpTriple,
      interpOpacity, lerp, lerpOpt, modifySpecFromSet, Option.map]
    all_goals norm_num

/-- C9: `setSpec` with a spec containing a transform writes the 16 components
element-wise into the node's existing committed transform array, so the call
throws (`none`) exactly when the committed spec lacks a transform array; a
spec without a transform clears the committed transform. -/
theorem setSpec_transform_in_place (n : LayoutNode) (spec : SpecObject) :
    (∀ t, spec.transform = some t →
      ((n.spec.transform = none → n.setSpec spec = none) ∧
       (∀ c m, n.spec.transform = some c → n.setSpec spec = some m →
          m.spec.transform = some (write16 c t)))) ∧
    (spec.transform = none → ∀ m, n.setSpec spec = some m → m.spec.transform = none) := by
  constructor
  · intro t ht
    constructor
    · intro hc
      cases h1 : writeComponents n.spec.align spec.align <;>
        cases h2 : writeComponents n.spec.origin spec.origin <;>
          cases h3 : writeComponents n.spec.size spec.size <;>
            simp [LayoutNode.setSpec, h1, h2, h3, ht, hc]
    · intro c m hc hm
      cases h1 : writeComponents n.spec.align spec.align <;>
        cases h2 : writeComponents n.spec.origin spec.origin <;>
          cases h3 : writeComponents n.spec.size spec.size <;>
            simp [LayoutNode.setSpec, h1, h2, h3, ht, hc] at hm <;>
              subst hm <;> rfl
  · intro ht m hm
    cases h1 : writeComponents n.spec.align spec.align <;>
      cases h2 : writeComponents n.spec.origin spec.origin <;>
        cases h3 : writeComponents n.spec.size spec.size <;>
          simp [LayoutNode.setSpec, h1, h2, h3, ht] at hm <;>
            subst hm <;> rfl

/-- Witness for `setSpec_transform_in_place`: a node constructed without an
initial spec (committed transform absent) crashes on a transform-bearing
setSpec, and one whose committed spec holds a transform array receives the
incoming components. -/
theorem setSpec_transform_in_place_witness :
    (({ transform := some (transformTranslate 1 2 3) } : SpecObject).transform
        = some (transformTranslate 1 2 3) ∧
      (LayoutNode.init 1 none).setSpec { transform := some (transformTranslate 1 2 3) }
        = none) ∧
    (((LayoutNode.init 2 (some { transform := some (transformTranslate 0 0 0) })).setSpec
        { transform := some (transformTranslate 1 2 3) }).map
          (fun m => m.spec.transform))
      = some (some (write16 (transformTranslate 0 0 0) (transformTranslate 1 2 3))) := by
  constructor
  · refine ⟨rfl, ?_⟩
    exact ((setSpec_transform_in_place (LayoutNode.init 1 none)
      { transform := some (transformTranslate 1 2 3) }).1
        (transformTranslate 1 2 3) rfl).1 rfl
  · decide

/-- C10: `remove` only sets the `_removing` flag: the removeSpec argument is
ignored and the committed spec, the interpolation state, the invalidation
flag and the render node are unchanged. -/
theorem remove_only_marks_removing (n : LayoutNode) (r1 r2 : Option SpecObject) :
    (n.remove r1).removing = true ∧
    (n.remove r1).spec = n.spec ∧
    (n.remove r1).transitionable = n.transitionable ∧
    (n.remove r1).originalSet = n.originalSet ∧
    (n.remove r1).lastSet = n.lastSet ∧
    (n.remove r1).targetSet = n.targetSet ∧
    (n.remove r1).invalidated = n.invalidated ∧
    (n.remove r1).renderNode = n.renderNode ∧
    n.remove r1 = n.remove r2 :=
  ⟨rfl, rfl, rfl, rfl, rfl, rfl, rfl, rfl, rfl⟩

theorem normBackLoop_stopped (specs : List Spec) (items : List ℕ) (i : ℕ) (p o : ℚ)
    (h : backCont specs items i = none) :
    normBackLoop specs items i p o = (i, p, o) := by
  cases i with
  | zero => rfl
  | succ j =>
    simp only [backCont] at h
    simp only [normBackLoop]
    cases hl : lookupSpecByViewSequence specs ⟨items, j⟩ with
    | none => simp [hl]
    | some sp =>
      simp only [hl] at h
      by_cases hc : sp.trueSizeRequested = true ∨ sp.transformOffset + sp.size < 0
      · simp [hl, hc]
      · simp only [if_neg hc] at h
        exact absurd h (by simp)

theorem backCont_normBackLoop (specs : List Spec) (items : List ℕ) (i : ℕ) (p o : ℚ) :
    backCont specs items (normBackLoop specs items i p o).1 = none := by
  induction i generalizing p o with
  | zero => rfl
  | succ j ih =>
    simp only [normBackLoop]
    cases hl : lookupSpecByViewSequence specs ⟨items, j⟩ with
    | none => simp [backCont, hl]
    | some sp =>
      simp only [hl]
      by_cases hc : sp.trueSizeRequested = true ∨ sp.transformOffset + sp.size < 0
      · simp only [if_pos hc]
        simp [backCont, hl, hc]
      · simp only [if_neg hc]
        exact ih _ _

theorem normBackLoop_result (specs : List Spec) (items : List ℕ) (i : ℕ) (p o : ℚ) :
    normBackLoop specs items i p o = (i, p, o) ∨
    (∃ sp, lookupSpecByViewSequence specs ⟨items, (normBackLoop specs items i p o).1⟩ = some sp ∧
      sp.trueSizeRequested = false ∧ 0 ≤ sp.transformOffset + sp.size) := by
  induction i generalizing p o with
  | zero => exact Or.inl rfl
  | succ j ih =>
    simp only [normBackLoop]
    cases hl : lookupSpecByViewSequence specs ⟨items, j⟩ with
    | none => exact Or.inl rfl
    | some sp =>
      simp only [hl]
      by_cases hc : sp.trueSizeRequested = true ∨ sp.transformOffset + sp.size < 0
      · rw [if_pos hc]
        exact Or.inl rfl
      · rw [if_neg hc]
        push_neg at hc
        rcases ih (p - sp.size) (o - sp.size) with he | hex
        · right
          rw [he]
          exact ⟨sp, hl, by simpa using hc.1, hc.2⟩
        · right
          exact hex

theorem normFwdLoop_stopped (specs : List Spec) (items : List ℕ) (fuel i : ℕ) (p o : ℚ)
    (h : fwdCont specs items i = none) :
    normFwdLoop specs items fuel i p o = (i, p, o) := by
  cases fuel with
  | zero => rfl
  | succ f =>
    simp only [fwdCont] at h
    simp only [normFwdLoop]
    cases hg : (⟨items, i + 1⟩ : ViewSeq).get with
    | none => simp [hg]
    | some x =>
      simp only [hg] at h
      simp only [hg]
      cases hl : lookupSpecByViewSequence specs ⟨items, i⟩ with
      | none => simp [hl]
      | some sp =>
        simp only [hl] at h
        simp only [hl]
        by_cases hc : sp.trueSizeRequested = true ∨ 0 ≤ sp.transformOffset + sp.size
        · rw [if_pos hc]
        · simp only [if_neg hc] at h
          exact absurd h (by simp)

theorem fwdCont_normFwdLoop (specs : List Spec) (items : List ℕ) (fuel : ℕ) :
    ∀ (i : ℕ) (p o : ℚ), items.length ≤ fuel + i →
      fwdCont specs items (normFwdLoop specs items fuel i p o).1 = none := by
  induction fuel with
  | zero =>
    intro i p o hf
    have hg : (⟨items, i + 1⟩ : ViewSeq).get = none := by
      show items[i + 1]? = none
      exact List.getElem?_eq_none (by omega)
    simp only [normFwdLoop, fwdCont, hg]
  | succ f ih =>
    intro i p o hf
    simp only [normFwdLoop]
    cases hg : (⟨items, i + 1⟩ : ViewSeq).get with
    | none =>
      simp only [hg, fwdCont]
    | some x =>
      simp only [hg]
      cases hl : lookupSpecByViewSequence specs ⟨items, i⟩ with
      | none =>
        simp only [hl, fwdCont, hg]
      | some sp =>
        simp only [hl]
        by_cases hc : sp.trueSizeRequested = true ∨ 0 ≤ sp.transformOffset + sp.size
        · rw [if_pos hc]
          simp only [fwdCont, hg, hl]
          rw [if_pos hc]
        · rw [if_neg hc]
          exact ih (i + 1) _ _ (by omega)

theorem normFwdLoop_result (specs : List Spec) (items : List ℕ) (fuel : ℕ) :
    ∀ (i : ℕ) (p o : ℚ),
      normFwdLoop specs items fuel i p o = (i, p, o) ∨
      (1 ≤ (normFwdLoop specs items fuel i p o).1 ∧
       ∃ sp, lookupSpecByViewSequence specs
           ⟨items, (normFwdLoop specs items fuel i p o).1 - 1⟩ = some sp ∧
         sp.trueSizeRequested = false ∧ sp.transformOffset + sp.size < 0) := by
  induction fuel with
  | zero => exact fun i p o => Or.inl rfl
  | succ f ih =>
    intro i p o
    simp only [normFwdLoop]
    cases hg : (⟨items, i + 1⟩ : ViewSeq).get with
    | none => exact Or.inl rfl
    | some x =>
      simp only [hg]
      cases hl : lookupSpecByViewSequence specs ⟨items, i⟩ with
      | none => exact Or.inl rfl
      | some sp =>
        simp only [hl]
        by_cases hc : sp.trueSizeRequested = true ∨ 0 ≤ sp.transformOffset + sp.size
        · rw [if_pos hc]
          exact Or.inl rfl
        · rw [if_neg hc]
          push_neg at hc
          rcases ih (i + 1) (p + sp.size) (o + sp.size) with he | hex
          · right
            rw [he]
            exact ⟨(by omega : 1 ≤ i + 1), sp, hl, by simpa using hc.1, hc.2⟩
          · right
            exact hex

theorem fwdCont_of_visible (specs : List Spec) (items : List ℕ) (i : ℕ) (sp : Spec)
    (hlk : lookupSpecByViewSequence specs ⟨items, i⟩ = some sp)
    (h0 : 0 ≤ sp.transformOffset + sp.size) :
    fwdCont specs items i = none := by
  simp only [fwdCont]
  cases hg : (⟨items, i + 1⟩ : ViewSeq).get with
  | none => rfl
  | some x =>
    simp only [hlk]
    rw [if_pos (Or.inr h0)]

theorem backCont_of_offscreen (specs : List Spec) (items : List ℕ) (i : ℕ) (sp : Spec)
    (hi : 1 ≤ i)
    (hlk : lookupSpecByViewSequence specs ⟨items, i - 1⟩ = some sp)
    (hneg : sp.transformOffset + sp.size < 0) :
    backCont specs items i = none := by
  cases i with
  | zero => omega
  | succ j =>
    simp only [backCont]
    rw [show j + 1 - 1 = j from rfl] at hlk
    simp only [hlk]
    rw [if_pos (Or.inr hneg)]

theorem lookup_ne_nil_of_some (specs : List Spec) (v : ViewSeq) (sp : Spec)
    (h : lookupSpecByViewSequence specs v = some sp) : specs ≠ [] := by
  intro he
  subst he
  unfold lookupSpecByViewSequence at h
  cases hg : v.get with
  | none => rw [hg] at h; exact absurd h (by simp)
  | some rn => rw [hg] at h; exact absurd h (by simp)

theorem lookup_nil (v : ViewSeq) : lookupSpecByViewSequence [] v = none := by
  unfold lookupSpecByViewSequence
  cases hg : v.get <;> simp

theorem backCont_nil (items : List ℕ) (i : ℕ) : backCont [] items i = none := by
  cases i with
  | zero => rfl
  | succ j => simp [backCont, lookup_nil]

theorem normalize_second_nonneg (vsize : ℚ) (specs : List Spec) (o1 : ℚ) (st1 : NormState)
    (items : List ℕ) (i : ℕ)
    (hseq : st1.seq = some ⟨items, i⟩)
    (hbc : backCont specs items i = none)
    (ho1 : 0 ≤ o1) :
    normalizeScrollOffset vsize specs o1 st1 = some (st1, o1) := by
  obtain ⟨sq, pt⟩ := st1
  obtain rfl : sq = some ⟨items, i⟩ := hseq
  simp only [normalizeScrollOffset, if_pos ho1,
    normBackLoop_stopped specs items i pt o1 hbc]

theorem normalize_second_gap (vsize : ℚ) (specs : List Spec) (o1 : ℚ) (st1 : NormState)
    (v1 : ViewSeq) (l : Spec)
    (hseq : st1.seq = some v1)
    (hgl : specs.getLast? = some l)
    (hgap : l.transformOffset + l.size < vsize)
    (ho1 : o1 < 0) :
    normalizeScrollOffset vsize specs o1 st1 = some (st1, o1) := by
  obtain ⟨sq, pt⟩ := st1
  obtain rfl : sq = some v1 := hseq
  simp only [normalizeScrollOffset, if_neg (not_le.mpr ho1), hgl, if_pos hgap]

theorem normalize_second_neg (vsize : ℚ) (specs : List Spec) (o1 : ℚ) (st1 : NormState)
    (items : List ℕ) (i : ℕ) (l : Spec)
    (hseq : st1.seq = some ⟨items, i⟩)
    (hfc : fwdCont specs items i = none)
    (hgl : specs.getLast? = some l)
    (hgap : ¬(l.transformOffset + l.size < vsize))
    (ho1 : o1 < 0) :
    normalizeScrollOffset vsize specs o1 st1 = some (st1, o1) := by
  obtain ⟨sq, pt⟩ := st1
  obtain rfl : sq = some ⟨items, i⟩ := hseq
  simp only [normalizeScrollOffset, if_neg (not_le.mpr ho1), hgl, if_neg hgap,
    normFwdLoop_stopped specs items items.length i pt o1 hfc]

/-- C6: `_normalizeScrollOffset` is idempotent: whenever a call returns
(anchor, particle, offset) without throwing, invoking it again with the same
viewport size and Spec window on the resulting state and offset returns the
same state and offset unchanged. -/
theorem normalize_idempotent (vsize : ℚ) (specs : List Spec) (o : ℚ)
    (st st1 : NormState) (o1 : ℚ)
    (h : normalizeScrollOffset vsize specs o st = some (st1, o1)) :
    normalizeScrollOffset vsize specs o1 st1 = some (st1, o1) := by
  unfold normalizeScrollOffset at h
  cases hseq : st.seq with
  | none =>
    rw [hseq] at h
    obtain ⟨h1, h2⟩ : st = st1 ∧ o = o1 := by simpa using h
    subst h1
    subst h2
    unfold normalizeScrollOffset
    rw [hseq]
  | some v =>
    simp only [hseq] at h
    by_cases ho : 0 ≤ o
    · rw [if_pos ho] at h
      obtain ⟨h1, h2⟩ :
          ({ seq := some ⟨v.items, (normBackLoop specs v.items v.idx st.particle o).1⟩,
             particle := (normBackLoop specs v.items v.idx st.particle o).2.1 } : NormState)
            = st1 ∧
          (normBackLoop specs v.items v.idx st.particle o).2.2 = o1 := by
        simpa using h
      have hbc : backCont specs v.items
          (normBackLoop specs v.items v.idx st.particle o).1 = none :=
        backCont_normBackLoop specs v.items v.idx st.particle o
      by_cases ho1 : 0 ≤ o1
      · exact normalize_second_nonneg vsize specs o1 st1 v.items _ (by rw [← h1]) hbc ho1
      · rcases normBackLoop_result specs v.items v.idx st.particle o with he | hex
        · exfalso
          rw [he] at h2
          exact ho1 ((show o = o1 from h2) ▸ ho)
        · obtain ⟨sp, hlk, hts, htr⟩ := hex
          have hne : specs ≠ [] := lookup_ne_nil_of_some specs _ sp hlk
          obtain ⟨l, hgl⟩ : ∃ l, specs.getLast? = some l := by
            cases hgle : specs.getLast? with
            | none => exact absurd (List.getLast?_eq_none_iff.mp hgle) hne
            | some l => exact ⟨l, rfl⟩
          by_cases hgap : l.transformOffset + l.size < vsize
          · exact normalize_second_gap vsize specs o1 st1 _ l (by rw [← h1]) hgl hgap
              (lt_of_not_le ho1)
          · have hfc : fwdCont specs v.items
                (normBackLoop specs v.items v.idx st.particle o).1 = none :=
              fwdCont_of_visible specs v.items _ sp hlk htr
            exact normalize_second_neg vsize specs o1 st1 v.items _ l (by rw [← h1]) hfc hgl
              hgap (lt_of_not_le ho1)
    · rw [if_neg ho] at h
      cases hgl : specs.getLast? with
      | none =>
        rw [hgl] at h
        exact absurd h (by simp)
      | some l =>
        simp only [hgl] at h
        by_cases hgap : l.transformOffset + l.size < vsize
        · rw [if_pos hgap] at h
          obtain ⟨h1, h2⟩ : st = st1 ∧ o = o1 := by simpa using h
          subst h1
          subst h2
          exact normalize_second_gap vsize specs o st v l hseq hgl hgap (lt_of_not_le ho)
        · rw [if_neg hgap] at h
          obtain ⟨h1, h2⟩ :
              ({ seq := some ⟨v.items,
                   (normFwdLoop specs v.items v.items.length v.idx st.particle o).1⟩,
                 particle := (normFwdLoop specs v.items v.items.length v.idx
                   st.particle o).2.1 } : NormState) = st1 ∧
              (normFwdLoop specs v.items v.items.length v.idx st.particle o).2.2 = o1 := by
            simpa using h
          have hfc : fwdCont specs v.items
              (normFwdLoop specs v.items v.items.length v.idx st.particle o).1 = none :=
            fwdCont_normFwdLoop specs v.items v.items.length v.idx st.particle o (by omega)
          by_cases ho1 : 0 ≤ o1
          · rcases normFwdLoop_result specs v.items v.items.length v.idx st.particle o
              with he | hex
            · exfalso
              rw [he] at h2
              exact ho ((show o = o1 from h2) ▸ ho1)
            · obtain ⟨hge1, sp, hlk, hts, htr⟩ := hex
              have hbc : backCont specs v.items
                  (normFwdLoop specs v.items v.items.length v.idx st.particle o).1 = none :=
                backCont_of_offscreen specs v.items _ sp hge1 hlk htr
              exact normalize_second_nonneg vsize specs o1 st1 v.items _ (by rw [← h1]) hbc ho1
          · exact normalize_second_neg vsize specs o1 st1 v.items _ l (by rw [← h1]) hfc hgl
              hgap (lt_of_not_le ho1)

/-- Witness for `normalize_idempotent`: a concrete first call that promotes
the previous node (cursor moves from index 1 to 0, particle and offset drop
by the node's size 8); the second call returns its input unchanged. -/
theorem normalize_idempotent_witness :
    normalizeScrollOffset 50 [⟨3, false, 0, 8⟩] 0 ⟨some ⟨[3], 1⟩, 0⟩
        = some (⟨some ⟨[3], 0⟩, -8⟩, -8) ∧
    normalizeScrollOffset 50 [⟨3, false, 0, 8⟩] (-8) ⟨some ⟨[3], 0⟩, -8⟩
        = some (⟨some ⟨[3], 0⟩, -8⟩, -8) := by
  have h : normalizeScrollOffset 50 [⟨3, false, 0, 8⟩] 0 ⟨some ⟨[3], 1⟩, 0⟩
      = some (⟨some ⟨[3], 0⟩, -8⟩, -8) := by
    simp +decide only [normalizeScrollOffset, normBackLoop, normFwdLoop,
      lookupSpecByViewSequence, ViewSeq.get, List.find?]
    all_goals norm_num
  exact ⟨h, normalize_idempotent 50 [⟨3, false, 0, 8⟩] 0 _ _ _ h⟩

/-- C7 counterexample: a cursor whose current item is null (index past the
end) is not treated as "no anchor": with a nonnegative offset the backward
walk still promotes the preceding node, changing the anchor, the particle
position and the offset.  And with an empty spec window and a negative
offset, `_normalizeScrollOffset` dereferences the missing last spec and
throws instead of returning the offset unchanged. -/
theorem normalize_null_item_counterexample :
    normalizeScrollOffset 100 [⟨7, false, 0, 10⟩] 0 ⟨some ⟨[7], 1⟩, 0⟩
        = some (⟨some ⟨[7], 0⟩, -10⟩, -10) ∧
    normalizeScrollOffset 100 [⟨7, false, 0, 10⟩] 0 ⟨some ⟨[7], 1⟩, 0⟩
        ≠ some (⟨some ⟨[7], 1⟩, 0⟩, 0) ∧
    normalizeScrollOffset 100 [] (-1) ⟨some ⟨[7], 0⟩, 0⟩ = none := by
  have h : normalizeScrollOffset 100 [⟨7, false, 0, 10⟩] 0 ⟨some ⟨[7], 1⟩, 0⟩
      = some (⟨some ⟨[7], 0⟩, -10⟩, -10) := by
    simp +decide only [normalizeScrollOffset, normBackLoop, normFwdLoop,
      lookupSpecByViewSequence, ViewSeq.get, List.find?]
    all_goals norm_num
  refine ⟨h, ?_, ?_⟩
  · rw [h]
    intro he
    obtain ⟨h1, h2⟩ : (⟨some ⟨[7], 0⟩, -10⟩ : NormState) = ⟨some ⟨[7], 1⟩, 0⟩ ∧
        (-10 : ℚ) = 0 := by simpa using he
    norm_num at h2
  · simp +decide only [normalizeScrollOffset]

/-- C7 (amended): `_normalizeScrollOffset` with a null anchor cursor returns
the input offset unchanged and leaves the anchor and the particle position
unmodified, for every offset; with an empty spec window it does so for every
nonnegative offset (for a negative offset the missing last spec is
dereferenced, and a cursor whose current item is null can still normalize
preceding nodes). -/
theorem normalize_degenerate_unchanged (vsize o : ℚ) (specs : List Spec) (st : NormState) :
    (st.seq = none → normalizeScrollOffset vsize specs o st = some (st, o)) ∧
    (specs = [] → 0 ≤ o → normalizeScrollOffset vsize specs o st = some (st, o)) := by
  constructor
  · intro hseq
    unfold normalizeScrollOffset
    rw [hseq]
  · intro hspecs ho
    subst hspecs
    cases hseq : st.seq with
    | none =>
      unfold normalizeScrollOffset
      rw [hseq]
    | some v =>
      obtain ⟨sq, pt⟩ := st
      obtain rfl : sq = some v := hseq
      obtain ⟨its, ix⟩ := v
      simp only [normalizeScrollOffset, if_pos ho,
        normBackLoop_stopped [] its ix pt o (backCont_nil its ix)]

/-- Witness for `normalize_degenerate_unchanged`: a null anchor with a
negative offset is returned unchanged. -/
theorem normalize_degenerate_unchanged_witness :
    (⟨none, 3⟩ : NormState).seq = none ∧
    normalizeScrollOffset 100 [] (-7) ⟨none, 3⟩ = some (⟨none, 3⟩, -7) :=
  ⟨rfl, (normalize_degenerate_unchanged 100 (-7) [] ⟨none, 3⟩).1 rfl⟩

/-- C5 counterexample: `_calculateBoundsReached` sets FIRST with a non-null
anchor while the first (and only) spec's leading edge is -5 < 0: with a
negative scroll offset the top check is skipped, but the end-of-sequence
path (line 381) ORs FIRST in as soon as `endReached(true)` holds, without
re-checking the leading edge. -/
theorem bounds_first_counterexample :
    calcBoundsReached 100 (-5) [⟨7, false, -5, 3⟩] (some ⟨[7], 0⟩) true 0 = some (3, 97) ∧
    Nat.land 3 Bounds.FIRST ≠ 0 ∧
    ([⟨7, false, -5, 3⟩] : List Spec).head?.map Spec.transformOffset = some (-5) ∧
    ((-5 : ℚ) < 0) := by
  refine ⟨?_, by decide, by simp, by norm_num⟩
  simp +decide only [calcBoundsReached, boundsWalk, lookupSpecByViewSequence, ViewSeq.get,
    List.find?, Bounds.FIRST, Bounds.NONE, Bounds.LAST]
  all_goals norm_num
  all_goals decide

/-- C5 (amended): whenever `_calculateBoundsReached` sets the FIRST bit in
`boundsReached` with a non-null anchor, the base controller reports
start-of-sequence reached (`endReached(true)`); the first spec's
leading-edge-at-or-after-0 condition additionally holds only when FIRST was
set by the top check (which requires a nonnegative scroll offset), not when
FIRST is ORed in by the end-of-sequence path. -/
theorem bounds_first_requires_endReached (vsize so lso nlso : ℚ) (specs : List Spec)
    (v : ViewSeq) (endReachedStart : Bool) (br : ℕ)
    (h : calcBoundsReached vsize so specs (some v) endReachedStart lso = some (br, nlso))
    (hb : br.land Bounds.FIRST ≠ 0) :
    endReachedStart = true := by
  cases endReachedStart with
  | true => rfl
  | false =>
    exfalso
    apply hb
    unfold calcBoundsReached at h
    simp only [Option.isNone_some, Bool.false_eq_true, false_and, if_false, if_neg] at h
    have hfc : (match specs with
        | [] => ((if (some v : Option ViewSeq).isNone then Bounds.FIRST else Bounds.NONE),
            (none : Option Spec))
        | s0 :: _ => ((if (some v : Option ViewSeq).isNone then Bounds.FIRST else Bounds.NONE),
            (none : Option Spec))) = (Bounds.NONE, (none : Option Spec)) := by
      cases specs <;> simp
    cases hspecs : specs with
    | nil =>
      subst hspecs
      simp only at h
      cases hw : boundsWalk [] v.items v.items.length v.idx none with
      | none =>
        rw [hw] at h
        obtain ⟨hbr, -⟩ : Bounds.NONE = br ∧ lso = nlso := by simpa using h
        subst hbr
        decide
      | some w =>
        rw [hw] at h
        cases w with
        | none => exact absurd h (by simp)
        | some sp =>
          simp only at h
          by_cases hvs : vsize < sp.transformOffset + sp.size
          · rw [if_pos hvs] at h
            obtain ⟨hbr, -⟩ : Bounds.NONE = br ∧ lso = nlso := by simpa using h
            subst hbr
            decide
          · rw [if_neg hvs] at h
            obtain ⟨hbr, -⟩ := by simpa using h
            subst hbr
            decide
    | cons s0 rest =>
      subst hspecs
      simp only [Bool.false_eq_true, false_and, if_neg, if_false] at h
      cases hw : boundsWalk (s0 :: rest) v.items v.items.length v.idx none with
      | none =>
        rw [hw] at h
        obtain ⟨hbr, -⟩ : Bounds.NONE = br ∧ lso = nlso := by simpa using h
        subst hbr
        decide
      | some w =>
        rw [hw] at h
        cases w with
        | none => exact absurd h (by simp)
        | some sp =>
          simp only at h
          by_cases hvs : vsize < sp.transformOffset + sp.size
          · rw [if_pos hvs] at h
            obtain ⟨hbr, -⟩ : Bounds.NONE = br ∧ lso = nlso := by simpa using h
            subst hbr
            decide
          · rw [if_neg hvs] at h
            obtain ⟨hbr, -⟩ := by simpa using h
            subst hbr
            decide

/-- Witness for `bounds_first_requires_endReached` at a concrete input where
FIRST is set through the end-of-sequence path. -/
theorem bounds_first_requires_endReached_witness :
    calcBoundsReached 90 (-4) [⟨5, false, -4, 2⟩] (some ⟨[5], 0⟩) true 1 = some (3, 88) ∧
    Nat.land 3 Bounds.FIRST ≠ 0 ∧
    true = true := by
  have h : calcBoundsReached 90 (-4) [⟨5, false, -4, 2⟩] (some ⟨[5], 0⟩) true 1
      = some (3, 88) := by
    simp +decide only [calcBoundsReached, boundsWalk, lookupSpecByViewSequence, ViewSeq.get,
      List.find?, Bounds.FIRST, Bounds.NONE, Bounds.LAST]
    all_goals norm_num
    all_goals decide
  exact ⟨h, by decide,
    bounds_first_requires_endReached 90 (-4) 1 88 [⟨5, false, -4, 2⟩] ⟨[5], 0⟩ true 3 h
      (by decide)⟩

end FamousFlex
